import Mathlib

/-!
Verification development for the `luma` renderer (Rust, Vulkan via `ash`).

The repository contains three historical snapshots of the same renderer:

* `src/main.rs`            — monolithic `Device` owning everything (oldest);
* `src/renderer.rs`        — `Renderer` with a pool of 2 `Frame` slots,
                             `Device`, `Swapchain`, `ComputePipeline` in one file;
* `src/renderer/…`         — the factored-out variant: `renderer/mod.rs`,
                             `renderer/device.rs`, `renderer/swapchain.rs`,
                             `renderer/compute_pipeline.rs`, `renderer/frame.rs`.

The shallow embedding below translates, per snapshot, the pure decision logic
(queue-family selection, surface-format selection, pipeline-creation error
handling, the staleness classification of `acquire`/`present`) and the command
traces recorded during a render cycle (fence waits and resets, command-buffer
resets, image layout transitions, dispatch and blit commands, submits and
presents).  GPU handles are abstracted to small inductive types; lists returned
by the driver become explicit inputs.  Namespaces mirror the snapshot a
definition was translated from: `MainRs` for `src/main.rs`, `RendererRs` for
`src/renderer.rs`, `RendererMod` / `SwapchainMod` / `DeviceRs` /
`ComputePipelineMod` for the files under `src/renderer/`.
-/

namespace Luma

/-- Vulkan image layouts used by the renderer (`vk::ImageLayout`). -/
inductive Layout
  | undefined
  | general
  | transferSrcOptimal
  | transferDstOptimal
  | presentSrc
  deriving DecidableEq, Repr

/-- The two images a render cycle touches: the intermediate storage image
written by the compute program and the acquired presentable (swapchain)
image. -/
inductive Img
  | storage
  | present
  deriving DecidableEq, Repr

/-- Blit filters (`vk::Filter`). -/
inductive Filter
  | linear
  | nearest
  deriving DecidableEq, Repr

/-- Driver-level error codes (`vk::Result` error values).  `outOfDateKhr` is
`VK_ERROR_OUT_OF_DATE_KHR`; every other error code is abstracted as
`other code`. -/
inductive VkErr
  | outOfDateKhr
  | other (code : Nat)
  deriving DecidableEq, Repr

/-- Rust `u32::div_ceil` (`self / rhs`, plus one when the remainder is
non-zero), as called with `rhs = 16` by both `dispatch` implementations. -/
def divCeil (a b : Nat) : Nat :=
  if a % b = 0 then a / b else a / b + 1

/-- A GPU command recorded into a command buffer. -/
inductive Cmd
  | transitionImage (img : Img) (oldLayout newLayout : Layout)
  | bindPipeline
  | bindDescriptorSets
  | pushConstants
  | dispatch (x y z : Nat)
  | blitImage (srcLayout dstLayout : Layout) (srcExtent dstExtent : Nat × Nat)
      (filter : Filter)
  deriving DecidableEq, Repr

/-- Layout tracking: a `transitionImage` barrier moves its image to the new
layout; every other command leaves layouts unchanged. -/
def applyCmd (st : Img → Layout) : Cmd → Img → Layout
  | .transitionImage img _ new => fun i => if i = img then new else st i
  | _ => st

/-- Fold `applyCmd` over a recorded command list. -/
def applyCmds (st : Img → Layout) (cs : List Cmd) : Img → Layout :=
  cs.foldl applyCmd st

/-- Host/GPU synchronisation events of one or more render cycles.  `slot`
identifies a `Frame` (its command buffer and its fence share the slot
number). -/
inductive Ev
  | fenceWait (slot : Nat)
  | fenceReset (slot : Nat)
  | bufferReset (slot : Nat)
  | bufferBegin (slot : Nat)
  | acquireImage (slot : Nat)
  | record (slot : Nat) (c : Cmd)
  | bufferEnd (slot : Nat)
  | queueSubmit (slot : Nat)
  | queuePresent (slot : Nat)
  deriving DecidableEq, Repr

/-- Which events use (reset, begin, record into, or end) the command buffer of
a slot. -/
def Ev.bufferUse : Ev → Option Nat
  | .bufferReset s => some s
  | .bufferBegin s => some s
  | .record s _ => some s
  | .bufferEnd s => some s
  | _ => none

/-- `Device::begin_frame` (src/renderer.rs lines 284-304, identically
src/renderer/device.rs lines 98-118): blocking `wait_for_fences` on the
frame's fence, `reset_fences`, `reset_command_buffer`, then
`begin_command_buffer`. -/
def beginFrameEvents (s : Nat) : List Ev :=
  [.fenceWait s, .fenceReset s, .bufferReset s, .bufferBegin s]

/-- `Device::end_frame` (src/renderer.rs lines 306-321, identically
src/renderer/device.rs lines 120-135): `end_command_buffer` then
`queue_submit` signalling the frame's fence. -/
def endFrameEvents (s : Nat) : List Ev :=
  [.bufferEnd s, .queueSubmit s]

/-- Fence-discipline monitor state: `p s = true` when a submission signalling
slot `s`'s fence is outstanding and the fence has not been waited on since.
All fences are created `SIGNALED`, so the initial state is `fun _ => false`.
A step returns `none` exactly when a command buffer is used while its slot's
previous submission has not been waited on. -/
def stepMonitor (p : Nat → Bool) : Ev → Option (Nat → Bool)
  | .queueSubmit s => some fun t => if t = s then true else p t
  | .fenceWait s => some fun t => if t = s then false else p t
  | e =>
    match e.bufferUse with
    | some s => if p s then none else some p
    | none => some p

/-- Run the fence-discipline monitor over a trace. -/
def runMonitor (p : Nat → Bool) : List Ev → Option (Nat → Bool)
  | [] => some p
  | e :: es =>
    match stepMonitor p e with
    | none => none
    | some q => runMonitor q es

namespace RendererRs

/-- `ComputePipeline::dispatch` (src/renderer.rs lines 781-829): transition
the storage image `UNDEFINED → GENERAL`, bind pipeline and descriptor set,
push constants, then `cmd_dispatch` with `div_ceil(extent, 16)` work-group
counts.  `w`, `h` are the storage-image extent. -/
def dispatchCmds (w h : Nat) : List Cmd :=
  [.transitionImage .storage .undefined .general,
   .bindPipeline,
   .bindDescriptorSets,
   .pushConstants,
   .dispatch (divCeil w 16) (divCeil h 16) 1]

/-- `ComputePipeline::blit` (src/renderer.rs lines 831-900): storage image
`GENERAL → TRANSFER_SRC_OPTIMAL`, present image
`UNDEFINED → TRANSFER_DST_OPTIMAL`, linear-filtered `cmd_blit_image` from the
storage extent to the present extent, storage back to `GENERAL`, present to
`PRESENT_SRC_KHR`.  `sw`,`sh` are the storage extent; `pw`,`ph` the
presentable (surface) extent. -/
def blitCmds (sw sh pw ph : Nat) : List Cmd :=
  [.transitionImage .storage .general .transferSrcOptimal,
   .transitionImage .present .undefined .transferDstOptimal,
   .blitImage .transferSrcOptimal .transferDstOptimal (sw, sh) (pw, ph) .linear,
   .transitionImage .storage .transferSrcOptimal .general,
   .transitionImage .present .transferDstOptimal .presentSrc]

/-- `MAX_CONCURRENT_FRAMES` (src/renderer.rs line 98). -/
def maxConcurrentFrames : Nat := 2

/-- One `Renderer::render` cycle (src/renderer.rs lines 158-184) on frame
slot `s`: `begin_frame`, `acquire_next_image`, `dispatch`, `blit`,
`end_frame`, `present_image`. -/
def renderCycleEvents (s w h pw ph : Nat) : List Ev :=
  beginFrameEvents s ++ [.acquireImage s]
    ++ (dispatchCmds w h).map (fun c => .record s c)
    ++ (blitCmds w h pw ph).map (fun c => .record s c)
    ++ endFrameEvents s ++ [.queuePresent s]

/-- `k` consecutive `Renderer::render` cycles; cycle `c` uses slot
`c % n` (`frame_index = frame_count % frames.len()`, src/renderer.rs line
159, with `frame_count` incremented once per cycle at line 181). -/
def renderTrace (n k w h pw ph : Nat) : List Ev :=
  (List.range k).flatMap fun c => renderCycleEvents (c % n) w h pw ph

end RendererRs

/-- The mutable state of `Swapchain` (src/renderer/swapchain.rs lines 14-22)
relevant to acquire/present: the presentable image list (abstracted to image
ids), `present_image_index`, and the `out_of_date` flag.  The surface extent
is threaded separately where needed. -/
structure Swapchain where
  presentImages : List Nat
  presentImageIndex : Nat
  outOfDate : Bool
  deriving DecidableEq, Repr

/-- The state `Swapchain::new` returns (src/renderer/swapchain.rs lines
146-157): `present_image_index = 0`, `out_of_date = false`. -/
def Swapchain.created (images : List Nat) : Swapchain :=
  { presentImages := images, presentImageIndex := 0, outOfDate := false }

/-- Driver outcome of `acquire_next_image`: `ash` returns
`Ok((image_index, suboptimal))` or `Err(vk::Result)`. -/
inductive AcquireResult
  | success (imageIndex : Nat) (suboptimal : Bool)
  | failure (e : VkErr)
  deriving DecidableEq, Repr

/-- Driver outcome of `queue_present`: `Ok(suboptimal)` or
`Err(vk::Result)`. -/
inductive PresentResult
  | success (suboptimal : Bool)
  | failure (e : VkErr)
  deriving DecidableEq, Repr

/-- `Swapchain::acquire_next` (src/renderer/swapchain.rs lines 161-181).
Translated as a state transformer: the returned pair is the updated `self`
and the `Result` (`none` = `Ok(())`, `some e` = `Err(e)`).  On success the
image index is stored and `out_of_date` records the suboptimal bit; on
`ERROR_OUT_OF_DATE_KHR` the flag is set and `Ok(())` is returned; any other
error is returned to the caller with `self` untouched. -/
def Swapchain.acquireNext (s : Swapchain) (r : AcquireResult) :
    Swapchain × Option VkErr :=
  match r with
  | .success idx sub => ({ s with presentImageIndex := idx, outOfDate := sub }, none)
  | .failure .outOfDateKhr => ({ s with outOfDate := true }, none)
  | .failure e => (s, some e)

/-- `Swapchain::present` (src/renderer/swapchain.rs lines 183-205): the same
stale/fatal classification as `acquire_next`. -/
def Swapchain.present (s : Swapchain) (r : PresentResult) :
    Swapchain × Option VkErr :=
  match r with
  | .success sub => ({ s with outOfDate := sub }, none)
  | .failure .outOfDateKhr => ({ s with outOfDate := true }, none)
  | .failure e => (s, some e)

/-- `Swapchain::present_image` (src/renderer/swapchain.rs lines 207-209):
`&self.present_images[self.present_image_index]`.  The Rust indexing panics
out of bounds; the embedding returns `none` there. -/
def Swapchain.presentImage? (s : Swapchain) : Option Nat :=
  s.presentImages.get? s.presentImageIndex

namespace RendererMod

/-- `ComputePipeline::dispatch` (src/renderer/compute_pipeline.rs lines
285-338): same command sequence as the src/renderer.rs variant — storage
`UNDEFINED → GENERAL`, bind pipeline, bind descriptor set, push constants,
`cmd_dispatch` with `div_ceil(extent, 16)` counts. -/
def dispatchCmds (w h : Nat) : List Cmd :=
  [.transitionImage .storage .undefined .general,
   .bindPipeline,
   .bindDescriptorSets,
   .pushConstants,
   .dispatch (divCeil w 16) (divCeil h 16) 1]

/-- `ComputePipeline::blit` (src/renderer/compute_pipeline.rs lines 340-393):
a single barrier on the storage image with `GENERAL` as both old and new
layout, then a linear-filtered `cmd_blit_image` executed with both images in
the `GENERAL` layout.  No transition to `TRANSFER_SRC_OPTIMAL` /
`TRANSFER_DST_OPTIMAL` and no transition toward `PRESENT_SRC_KHR` occurs
here. -/
def blitCmds (sw sh pw ph : Nat) : List Cmd :=
  [.transitionImage .storage .general .general,
   .blitImage .general .general (sw, sh) (pw, ph) .linear]

/-- The commands recorded during one successful render cycle of
src/renderer/mod.rs: `Renderer::begin` (lines 214-227) transitions the
acquired present image `UNDEFINED → GENERAL` after `acquire_next`;
`Renderer::render` (lines 250-264) records `dispatch` then `blit`;
`Renderer::end` (lines 229-248) transitions the present image
`GENERAL → PRESENT_SRC_KHR` before submitting. -/
def cycleCmds (w h pw ph : Nat) : List Cmd :=
  [.transitionImage .present .undefined .general]
    ++ dispatchCmds w h ++ blitCmds w h pw ph
    ++ [.transitionImage .present .general .presentSrc]

/-- One full `begin` / `render` / `end` cycle of src/renderer/mod.rs
(`begin` at lines 214-227, `render` at 250-264, `end` at 229-248), driven by
the `Render` schedule (Begin → Render → End, src/renderer/schedule.rs).
`sw` is the swapchain state, `w`,`h` the storage-image extent, `pw`,`ph` the
surface extent, `acq`/`pres` the driver outcomes of `acquire_next_image` and
`queue_present`.  Returns the final swapchain state, the propagated error (if
any), and the event trace.  There is no branch on `out_of_date` anywhere in
this cycle, and no path recreates the swapchain. -/
def cycle (sw : Swapchain) (w h pw ph : Nat) (acq : AcquireResult)
    (pres : PresentResult) : Swapchain × Option VkErr × List Ev :=
  match Swapchain.acquireNext sw acq with
  | (sw1, some e) => (sw1, some e, beginFrameEvents 0)
  | (sw1, none) =>
    let evs := beginFrameEvents 0 ++ [.acquireImage 0]
      ++ (cycleCmds w h pw ph).map (fun c => .record 0 c)
      ++ endFrameEvents 0 ++ [.queuePresent 0]
    match Swapchain.present sw1 pres with
    | (sw2, r) => (sw2, r, evs)

end RendererMod

/-- A physical-device queue family as seen by the selection code:
`queue_flags` membership of `GRAPHICS` and `COMPUTE`, and the result of
`get_physical_device_surface_support` for it (`none` when that call fails,
matching the `.ok()?` in src/main.rs). -/
structure QueueFamilyInfo where
  graphics : Bool
  compute : Bool
  presentSupport : Option Bool
  deriving DecidableEq, Repr

/-- `families.into_iter().enumerate().find_map(...)`: index of the first
queue family satisfying `p`. -/
def findFamilyIdx (p : QueueFamilyInfo → Bool) : List QueueFamilyInfo → Option Nat
  | [] => none
  | q :: qs => if p q = true then some 0 else (findFamilyIdx p qs).map (· + 1)

/-- `enumerate_physical_devices()?.into_iter().find_map(...)`: the first
(physical device, queue family) index pair whose family satisfies `p`.
Both selection sites iterate devices in enumeration order and families in
index order. -/
def findDeviceFamily (p : QueueFamilyInfo → Bool) :
    List (List QueueFamilyInfo) → Option (Nat × Nat)
  | [] => none
  | fams :: rest =>
    match findFamilyIdx p fams with
    | some f => some (0, f)
    | none => (findDeviceFamily p rest).map fun x => (x.1 + 1, x.2)

/-- Lookup of queue family `f` of physical device `d`. -/
def familyAt (devices : List (List QueueFamilyInfo)) (d f : Nat) :
    Option QueueFamilyInfo :=
  (devices.get? d).bind fun fams => fams.get? f

namespace DeviceRs

/-- The queue-family predicate of `Device::new` in src/renderer/device.rs
(lines 45-59) and identically src/renderer.rs (lines 224-238):
`queue_flags.contains(GRAPHICS | COMPUTE)`.  Surface/presentation support is
not consulted (no surface exists yet at this point in those snapshots). -/
def queueCond (q : QueueFamilyInfo) : Bool :=
  q.graphics && q.compute

/-- The selection step of `Device::new` (src/renderer/device.rs lines 45-59):
first matching pair, `ok_or_else` fatal error when none. -/
def selectDeviceAndQueue (devices : List (List QueueFamilyInfo)) :
    Except String (Nat × Nat) :=
  match findDeviceFamily queueCond devices with
  | some x => .ok x
  | none => .error "No suitable physical device found"

end DeviceRs

namespace MainRs

/-- The queue-family predicate of `Device::new` in src/main.rs (lines
171-201): `GRAPHICS | COMPUTE` in the queue flags AND
`get_physical_device_surface_support` returning `Ok(true)` (an `Err` from
that call skips the family via `.ok()?`). -/
def queueCond (q : QueueFamilyInfo) : Bool :=
  q.graphics && q.compute && (q.presentSupport == some true)

/-- The selection step of `Device::new` (src/main.rs lines 171-201). -/
def selectDeviceAndQueue (devices : List (List QueueFamilyInfo)) :
    Except String (Nat × Nat) :=
  match findDeviceFamily queueCond devices with
  | some x => .ok x
  | none => .error "No suitable physical device found"

end MainRs

/-- Surface pixel formats (`vk::Format`); the two the selection code names,
plus an abstract `otherFormat` for every other code. -/
inductive VkFormat
  | b8g8r8a8Unorm
  | r8g8b8a8Unorm
  | otherFormat (code : Nat)
  deriving DecidableEq, Repr

/-- Surface color spaces (`vk::ColorSpaceKHR`). -/
inductive ColorSpace
  | srgbNonlinear
  | otherSpace (code : Nat)
  deriving DecidableEq, Repr

/-- One entry of `get_physical_device_surface_formats`
(`vk::SurfaceFormatKHR`). -/
structure SurfaceFormat where
  format : VkFormat
  colorSpace : ColorSpace
  deriving DecidableEq, Repr

namespace SwapchainMod

/-- The format predicate of `Swapchain::new` in src/renderer/swapchain.rs
(lines 58-64): `B8G8R8A8_UNORM` or `R8G8B8A8_UNORM`, with
`SRGB_NONLINEAR`. -/
def formatCond (f : SurfaceFormat) : Bool :=
  (f.format == .b8g8r8a8Unorm || f.format == .r8g8b8a8Unorm)
    && (f.colorSpace == .srgbNonlinear)

/-- The format-selection step of `Swapchain::new`
(src/renderer/swapchain.rs lines 58-65): `iter().find(...)` then
`ok_or_else` — there is no fallback; a missing match is a fatal error. -/
def chooseSurfaceFormat (formats : List SurfaceFormat) :
    Except String SurfaceFormat :=
  match formats.find? formatCond with
  | some f => .ok f
  | none => .error "No suitable surface format found"

end SwapchainMod

namespace RendererRs

/-- The format-selection step of `Swapchain::new` in src/renderer.rs (lines
477-484): identical to the src/renderer/swapchain.rs variant — find the first
BGRA/RGBA UNORM + SRGB_NONLINEAR format, `ok_or_else` fatal error, no
fallback. -/
def chooseSurfaceFormat (formats : List SurfaceFormat) :
    Except String SurfaceFormat :=
  match formats.find? SwapchainMod.formatCond with
  | some f => .ok f
  | none => .error "No suitable surface format found"

end RendererRs

namespace MainRs

/-- The format predicate of `Device::new` in src/main.rs (lines 232-237):
only `B8G8R8A8_UNORM` with `SRGB_NONLINEAR` (RGBA is not preferred here). -/
def formatCond (f : SurfaceFormat) : Bool :=
  (f.format == .b8g8r8a8Unorm) && (f.colorSpace == .srgbNonlinear)

/-- The format selection of src/main.rs (lines 232-239):
`find(...)` with a `.or_else(|| surface_formats.first())` fallback, then
`ok_or_else` — the error is reachable only when the driver reports no formats
at all. -/
def chooseSurfaceFormat (formats : List SurfaceFormat) :
    Except String SurfaceFormat :=
  match formats.find? formatCond with
  | some f => .ok f
  | none =>
    match formats.head? with
    | some f => .ok f
    | none => .error "No suitable surface format found"

end MainRs

/-- A compute pipeline handle; `null` is `vk::Pipeline::null()`, the value a
failed `vkCreateComputePipelines` writes into its output slot. -/
inductive Pipeline
  | null
  | handle (id : Nat)
  deriving DecidableEq, Repr

/-- Outcome of `ash`'s `create_compute_pipelines`:
`Ok(pipelines)` or `Err((pipelines, vk::Result))` — in the error case `ash`
still hands back the (possibly null-filled) pipeline vector. -/
inductive PipelinesResult
  | success (pipelines : List Pipeline)
  | failure (pipelines : List Pipeline) (e : VkErr)
  deriving DecidableEq, Repr

/-- What the caller of `create_compute_pipelines` ends up doing with the
result. -/
inductive CreateOutcome
  | retained (p : Pipeline)
  | aborted (e : VkErr)
  | abortedNotExactlyOne
  | panicked
  deriving DecidableEq, Repr

/-- `true` exactly when construction was aborted and an error propagated. -/
def CreateOutcome.isAbort : CreateOutcome → Bool
  | .aborted _ => true
  | .abortedNotExactlyOne => true
  | _ => false

namespace RendererRs

/-- The pipeline-creation result handling of `ComputePipeline::new` in
src/renderer.rs (lines 708-726), identical in src/main.rs (lines 416-434):
`Ok(pipelines) => pipelines[0]` (a Rust index panic when empty);
`Err((pipelines, err))` uses `pipelines[0]` whenever the vector is non-empty
and only otherwise returns the error. -/
def pipelineFromResult : PipelinesResult → CreateOutcome
  | .success [] => .panicked
  | .success (p :: _) => .retained p
  | .failure [] e => .aborted e
  | .failure (p :: _) _ => .retained p

end RendererRs

namespace ComputePipelineMod

/-- The pipeline-creation result handling of `ComputePipeline::new` in
src/renderer/compute_pipeline.rs (lines 168-173):
`.map_err(...)?` propagates every `Err`, and the `[pipeline] = … .try_into()`
pattern errors unless exactly one pipeline was returned. -/
def pipelineFromResult : PipelinesResult → CreateOutcome
  | .success [p] => .retained p
  | .success _ => .abortedNotExactlyOne
  | .failure _ e => .aborted e

end ComputePipelineMod

/-- Rust's `as u32` cast from a non-negative real value: truncation toward
zero, saturating at `u32::MAX`.  The renderer computes
`(dim as f32 * resolution_scaling) as u32`; this embedding evaluates the
product exactly over `ℚ`.  At every input where the exact product is
representable in `f32` (in particular all inputs appearing in the theorems
below, whose factors and products are small dyadic rationals) the `f32`
multiplication is exact and agrees with the rational product, so the
embedding computes the very value the code computes. -/
def asU32 (q : ℚ) : Nat :=
  min (Int.floor q).toNat (2 ^ 32 - 1)

namespace RendererRs

/-- The intermediate (storage) target extent of `ComputePipeline::new`
(src/renderer.rs lines 599-600):
`width = (width as f32 * resolution_scaling) as u32` and likewise for the
height.  The same two lines appear in src/renderer/mod.rs (159-160) and in
`create_compute_pipeline` (src/renderer/compute_pipeline.rs lines 75-77). -/
def scaledExtent (width height : Nat) (scaling : ℚ) : Nat × Nat :=
  (asU32 ((width : ℚ) * scaling), asU32 ((height : ℚ) * scaling))

end RendererRs

/-- Sample swapchain state used by concrete-input theorems. -/
def sampleSwapchain : Swapchain :=
  Swapchain.created [100, 101, 102]

/-- Sample physical-device table: the first adapter's only family lacks
graphics support, the second adapter's only family supports graphics, compute
and presentation. -/
def exampleDevices : List (List QueueFamilyInfo) :=
  [[{ graphics := false, compute := true, presentSupport := some true }],
   [{ graphics := true, compute := true, presentSupport := some true }]]

/-- Sample surface-format table: an unlisted format first, then RGBA UNORM
with SRGB nonlinear. -/
def exampleFormats : List SurfaceFormat :=
  [{ format := .otherFormat 43, colorSpace := .srgbNonlinear },
   { format := .r8g8b8a8Unorm, colorSpace := .srgbNonlinear }]

/-! ### Helper lemmas -/

/-- The monitor runs compositionally over concatenated traces. -/
theorem runMonitor_append (xs ys : List Ev) :
    ∀ p, runMonitor p (xs ++ ys) =
      (runMonitor p xs).bind fun q => runMonitor q ys := by
  induction xs with
  | nil => intro p; rfl
  | cons e es ih =>
    intro p
    simp only [List.cons_append, runMonitor]
    cases stepMonitor p e with
    | none => rfl
    | some q => exact ih q

/-- Running the monitor through one full `Renderer::render` cycle of
src/renderer.rs never signals a violation: the cycle starts by waiting on the
slot's fence (clearing any outstanding submission for that slot) before any
use of the slot's command buffer, and ends by submitting on that slot. -/
theorem runMonitor_renderCycle (p : Nat → Bool) (s w h pw ph : Nat) :
    runMonitor p (RendererRs.renderCycleEvents s w h pw ph) =
      some fun t => if t = s then true else p t := by
  simp only [RendererRs.renderCycleEvents, beginFrameEvents, endFrameEvents,
    RendererRs.dispatchCmds, RendererRs.blitCmds, List.map, List.cons_append,
    List.nil_append, List.append_assoc]
  simp [runMonitor, stepMonitor, Ev.bufferUse]
  funext t
  by_cases ht : t = s <;> simp [ht]

/-- Index-level characterisation of a successful `findFamilyIdx`: the found
family satisfies the predicate and every earlier family fails it. -/
theorem findFamilyIdx_some (p : QueueFamilyInfo → Bool) :
    ∀ (qs : List QueueFamilyInfo) (f : Nat), findFamilyIdx p qs = some f →
      (∃ q, qs.get? f = some q ∧ p q = true) ∧
      ∀ f' q', f' < f → qs.get? f' = some q' → p q' = false := by
  intro qs
  induction qs with
  | nil => intro f h; exact Option.noConfusion h
  | cons q0 qs ih =>
    intro f h
    rw [findFamilyIdx] at h
    by_cases hp : p q0 = true
    · rw [if_pos hp] at h
      cases h
      exact ⟨⟨q0, rfl, hp⟩, fun f' q' hf' _ => absurd hf' (Nat.not_lt_zero f')⟩
    · rw [if_neg hp] at h
      cases hfind : findFamilyIdx p qs with
      | none => rw [hfind] at h; exact Option.noConfusion h
      | some g =>
        rw [hfind] at h
        simp only [Option.map_some'] at h
        cases h
        obtain ⟨⟨q, hq, hpq⟩, hmin⟩ := ih g hfind
        refine ⟨⟨q, hq, hpq⟩, ?_⟩
        intro f' q' hf' hget
        cases f' with
        | zero =>
          simp only [List.get?] at hget
          cases hget
          exact Bool.eq_false_iff.mpr hp
        | succ f'' => exact hmin f'' q' (Nat.lt_of_succ_lt_succ hf') hget

/-- `findFamilyIdx` fails exactly when no family satisfies the predicate. -/
theorem findFamilyIdx_none (p : QueueFamilyInfo → Bool) :
    ∀ qs : List QueueFamilyInfo, findFamilyIdx p qs = none ↔
      ∀ i q, qs.get? i = some q → p q = false := by
  intro qs
  induction qs with
  | nil =>
    constructor
    · intro _ i q hget; exact Option.noConfusion hget
    · intro _; rfl
  | cons q0 qs ih =>
    rw [findFamilyIdx]
    constructor
    · intro h i q hget
      by_cases hp : p q0 = true
      · rw [if_pos hp] at h; exact Option.noConfusion h
      · rw [if_neg hp] at h
        cases i with
        | zero =>
          simp only [List.get?] at hget
          cases hget
          exact Bool.eq_false_iff.mpr hp
        | succ i' =>
          cases hfind : findFamilyIdx p qs with
          | none => exact (ih.mp hfind) i' q hget
          | some g => rw [hfind] at h; exact Option.noConfusion h
    · intro h
      have hp0 : p q0 = false := h 0 q0 rfl
      rw [if_neg (by simp [hp0])]
      rw [ih.mpr fun i q hget => h (i + 1) q hget]
      rfl

/-- Characterisation of a successful `findDeviceFamily`: the selected pair
satisfies the predicate and every lexicographically earlier pair fails it. -/
theorem findDeviceFamily_some (p : QueueFamilyInfo → Bool) :
    ∀ (devices : List (List QueueFamilyInfo)) (d f : Nat),
      findDeviceFamily p devices = some (d, f) →
      (∃ q, familyAt devices d f = some q ∧ p q = true) ∧
      ∀ d' f' q', (d' < d ∨ (d' = d ∧ f' < f)) →
        familyAt devices d' f' = some q' → p q' = false := by
  intro devices
  induction devices with
  | nil => intro d f h; exact Option.noConfusion h
  | cons fams rest ih =>
    intro d f h
    rw [findDeviceFamily] at h
    cases hfind : findFamilyIdx p fams with
    | some f0 =>
      rw [hfind] at h
      obtain ⟨rfl, rfl⟩ : 0 = d ∧ f0 = f := by
        injection h with h2
        exact ⟨congrArg Prod.fst h2, congrArg Prod.snd h2⟩
      obtain ⟨⟨q, hq, hpq⟩, hmin⟩ := findFamilyIdx_some p fams f0 hfind
      refine ⟨⟨q, by simpa [familyAt] using hq, hpq⟩, ?_⟩
      intro d' f' q' hlt hget
      rcases hlt with hd' | ⟨hd', hf'⟩
      · exact absurd hd' (Nat.not_lt_zero d')
      · subst hd'
        exact hmin f' q' hf' (by simpa [familyAt] using hget)
    | none =>
      rw [hfind] at h
      cases hrec : findDeviceFamily p rest with
      | none => rw [hrec] at h; exact Option.noConfusion h
      | some x =>
        rw [hrec] at h
        simp only [Option.map_some'] at h
        obtain ⟨rfl, rfl⟩ : x.1 + 1 = d ∧ x.2 = f := by
          injection h with h2
          exact ⟨congrArg Prod.fst h2, congrArg Prod.snd h2⟩
        obtain ⟨⟨q, hq, hpq⟩, hmin⟩ := ih x.1 x.2 (by rw [hrec])
        refine ⟨⟨q, by simpa [familyAt] using hq, hpq⟩, ?_⟩
        intro d' f' q' hlt hget
        cases d' with
        | zero =>
          exact (findFamilyIdx_none p fams).mp hfind f' q'
            (by simpa [familyAt] using hget)
        | succ d'' =>
          refine hmin d'' f' q' ?_ (by simpa [familyAt] using hget)
          rcases hlt with hlt | ⟨heq, hf'⟩
          · exact Or.inl (Nat.lt_of_succ_lt_succ hlt)
          · exact Or.inr ⟨Nat.succ_injective heq, hf'⟩

/-- `findDeviceFamily` fails exactly when no (device, family) pair satisfies
the predicate. -/
theorem findDeviceFamily_none (p : QueueFamilyInfo → Bool) :
    ∀ devices : List (List QueueFamilyInfo),
      findDeviceFamily p devices = none ↔
      ∀ d f q, familyAt devices d f = some q → p q = false := by
  intro devices
  induction devices with
  | nil =>
    constructor
    · intro _ d f q hget
      simp [familyAt] at hget
    · intro _; rfl
  | cons fams rest ih =>
    rw [findDeviceFamily]
    cases hfind : findFamilyIdx p fams with
    | some f0 =>
      constructor
      · intro h; exact Option.noConfusion h
      · intro h
        obtain ⟨⟨q, hq, hpq⟩, -⟩ := findFamilyIdx_some p fams f0 hfind
        have hc : p q = false := h 0 f0 q (by simpa [familyAt] using hq)
        rw [hpq] at hc
        exact Bool.noConfusion hc
    | none =>
      cases hrec : findDeviceFamily p rest with
      | some x =>
        constructor
        · intro h; exact Option.noConfusion h
        · intro h
          obtain ⟨⟨q, hq, hpq⟩, -⟩ :=
            findDeviceFamily_some p rest x.1 x.2 (by rw [hrec])
          have hc : p q = false := h (x.1 + 1) x.2 q (by simpa [familyAt] using hq)
          rw [hpq] at hc
          exact Bool.noConfusion hc
      | none =>
        constructor
        · intro _ d f q hget
          cases d with
          | zero =>
            exact (findFamilyIdx_none p fams).mp hfind f q
              (by simpa [familyAt] using hget)
          | succ d' =>
            exact (ih.mp hrec) d' f q (by simpa [familyAt] using hget)
        · intro _; rfl

/-- A successful `List.find?` returns the first element satisfying the
predicate: it satisfies it, and all earlier list entries fail it. -/
theorem find?_some_first {α : Type} (p : α → Bool) :
    ∀ (l : List α) (a : α), l.find? p = some a →
      ∃ i, l.get? i = some a ∧ p a = true ∧
        ∀ j b, j < i → l.get? j = some b → p b = false := by
  intro l
  induction l with
  | nil => intro a h; exact Option.noConfusion h
  | cons x xs ih =>
    intro a h
    by_cases hp : p x = true
    · rw [List.find?_cons_of_pos _ hp] at h
      cases h
      exact ⟨0, rfl, hp, fun j b hj _ => absurd hj (Nat.not_lt_zero j)⟩
    · rw [List.find?_cons_of_neg _ (by simpa using hp)] at h
      obtain ⟨i, hget, hpa, hmin⟩ := ih a h
      refine ⟨i + 1, hget, hpa, ?_⟩
      intro j b hj hgetj
      cases j with
      | zero =>
        simp only [List.get?] at hgetj
        cases hgetj
        exact Bool.eq_false_iff.mpr hp
      | succ j' => exact hmin j' b (Nat.lt_of_succ_lt_succ hj) hgetj

/-- A failing `List.find?` means every entry fails the predicate. -/
theorem find?_none_iff {α : Type} (p : α → Bool) :
    ∀ l : List α, l.find? p = none ↔
      ∀ i a, l.get? i = some a → p a = false := by
  intro l
  induction l with
  | nil =>
    constructor
    · intro _ i a hget; exact Option.noConfusion hget
    · intro _; rfl
  | cons x xs ih =>
    constructor
    · intro h i a hget
      by_cases hp : p x = true
      · rw [List.find?_cons_of_pos _ hp] at h; exact Option.noConfusion h
      · cases i with
        | zero =>
          simp only [List.get?] at hget
          cases hget
          exact Bool.eq_false_iff.mpr hp
        | succ i' =>
          rw [List.find?_cons_of_neg _ (by simpa using hp)] at h
          exact (ih.mp h) i' a hget
    · intro h
      have hp0 : p x = false := h 0 x rfl
      rw [List.find?_cons_of_neg _ (by simp [hp0])]
      exact ih.mpr fun i a hget => h (i + 1) a hget

/-- Rust's `div_ceil` with divisor 16 equals the usual ceiling-division
formula. -/
theorem divCeil_16 (w : Nat) : divCeil w 16 = (w + 15) / 16 := by
  unfold divCeil
  split <;> omega

/-- Running the monitor over any number of consecutive `Renderer::render`
cycles of src/renderer.rs never reports a violation. -/
theorem runMonitor_renderTrace (n w h pw ph : Nat) :
    ∀ k, ∀ p : Nat → Bool,
      ∃ q, runMonitor p (RendererRs.renderTrace n k w h pw ph) = some q := by
  intro k
  induction k with
  | zero => intro p; exact ⟨p, rfl⟩
  | succ k ih =>
    intro p
    have hsplit : RendererRs.renderTrace n (k + 1) w h pw ph =
        RendererRs.renderTrace n k w h pw ph
          ++ RendererRs.renderCycleEvents (k % n) w h pw ph := by
      simp [RendererRs.renderTrace, List.range_succ]
    rw [hsplit, runMonitor_append]
    obtain ⟨q, hq⟩ := ih p
    rw [hq]
    exact ⟨_, runMonitor_renderCycle q (k % n) w h pw ph⟩

/-! ### Claim theorems -/

/-- C1 (Fence discipline): in src/renderer.rs, `Device::begin_frame` performs
the blocking fence wait first, then resets the fence, and only then resets
and begins the command buffer; each `Renderer::render` cycle on slot
`frame_count % n` starts with that fence wait before any command is recorded;
and over any `k` consecutive render cycles the fence-discipline monitor —
which rejects any use of a slot's command buffer while that slot's previous
submission has not been fence-waited — accepts the whole trace from the
initial all-signalled fence state. -/
theorem fence_discipline (n k w h pw ph : Nat) :
    (∀ s, beginFrameEvents s =
      [.fenceWait s, .fenceReset s, .bufferReset s, .bufferBegin s]) ∧
    (∀ s, (RendererRs.renderCycleEvents s w h pw ph).head? =
      some (.fenceWait s)) ∧
    (∃ q, runMonitor (fun _ => false)
      (RendererRs.renderTrace n k w h pw ph) = some q) := by
  refine ⟨fun s => rfl, fun s => rfl, ?_⟩
  exact runMonitor_renderTrace n w h pw ph k _

/-- C2 (the code contradicts the claim): in the src/renderer/mod.rs render
cycle, when `acquire_next_image` reports `ERROR_OUT_OF_DATE_KHR` the
swapchain records `out_of_date = true`, yet the very same cycle still records
the compute dispatch and the blit and still calls `queue_present`; no path
recreates the swapchain.  Storage extent 640×480, surface extent 1280×960. -/
theorem stale_cycle_proceeds :
    (RendererMod.cycle sampleSwapchain 640 480 1280 960
      (.failure .outOfDateKhr) (.failure .outOfDateKhr)).1.outOfDate = true ∧
    (RendererMod.cycle sampleSwapchain 640 480 1280 960
      (.failure .outOfDateKhr) (.failure .outOfDateKhr)).2.1 = none ∧
    Ev.record 0 (Cmd.dispatch 40 30 1) ∈
      (RendererMod.cycle sampleSwapchain 640 480 1280 960
        (.failure .outOfDateKhr) (.failure .outOfDateKhr)).2.2 ∧
    Ev.record 0 (Cmd.blitImage .general .general (640, 480) (1280, 960) .linear) ∈
      (RendererMod.cycle sampleSwapchain 640 480 1280 960
        (.failure .outOfDateKhr) (.failure .outOfDateKhr)).2.2 ∧
    Ev.queuePresent 0 ∈
      (RendererMod.cycle sampleSwapchain 640 480 1280 960
        (.failure .outOfDateKhr) (.failure .outOfDateKhr)).2.2 := by
  decide

/-- C3 counterexample: the `ComputePipeline::blit` of
src/renderer/compute_pipeline.rs (at storage extent 640×480, surface extent
1280×960) contains no transition of the intermediate target to the
transfer-source layout, none of the presentable image to the
transfer-destination layout, and none to the present-ready layout — so the
claim that every blit call performs those transitions is false for this blit
call. -/
theorem blit_layout_claim_counterexample :
    RendererMod.blitCmds 640 480 1280 960 =
      [Cmd.transitionImage .storage .general .general,
       Cmd.blitImage .general .general (640, 480) (1280, 960) .linear] ∧
    ((RendererMod.blitCmds 640 480 1280 960).all fun c =>
      match c with
      | Cmd.transitionImage _ _ .transferSrcOptimal => false
      | Cmd.transitionImage _ _ .transferDstOptimal => false
      | Cmd.transitionImage _ _ .presentSrc => false
      | _ => true) = true := by
  decide

/-- C3 (amended): the src/renderer.rs blit performs the full claimed layout
cycle (intermediate to transfer-source, presentable to transfer-destination,
filtered stretch, intermediate back to general, presentable to
present-ready); the src/renderer/compute_pipeline.rs blit instead keeps both
images in the general layout during the copy and leaves the present-ready
transition to `Renderer::end`; in both variants, after a dispatch+blit
sequence (plus, for the mod.rs variant, the surrounding begin/end
transitions) the intermediate target's final layout is general and the
presentable image's layout before present is present-ready, from any starting
layout state. -/
theorem blit_layout_cycles (sw sh pw ph : Nat) (st : Img → Layout) :
    RendererRs.blitCmds sw sh pw ph =
      [Cmd.transitionImage .storage .general .transferSrcOptimal,
       Cmd.transitionImage .present .undefined .transferDstOptimal,
       Cmd.blitImage .transferSrcOptimal .transferDstOptimal (sw, sh) (pw, ph)
         .linear,
       Cmd.transitionImage .storage .transferSrcOptimal .general,
       Cmd.transitionImage .present .transferDstOptimal .presentSrc] ∧
    applyCmds st (RendererRs.dispatchCmds sw sh
      ++ RendererRs.blitCmds sw sh pw ph) .storage = .general ∧
    applyCmds st (RendererRs.dispatchCmds sw sh
      ++ RendererRs.blitCmds sw sh pw ph) .present = .presentSrc ∧
    RendererMod.blitCmds sw sh pw ph =
      [Cmd.transitionImage .storage .general .general,
       Cmd.blitImage .general .general (sw, sh) (pw, ph) .linear] ∧
    applyCmds st (RendererMod.cycleCmds sw sh pw ph) .storage = .general ∧
    applyCmds st (RendererMod.cycleCmds sw sh pw ph) .present = .presentSrc := by
  refine ⟨rfl, ?_, ?_, rfl, ?_, ?_⟩ <;>
    simp [applyCmds, applyCmd, RendererRs.dispatchCmds, RendererRs.blitCmds,
      RendererMod.cycleCmds, RendererMod.dispatchCmds, RendererMod.blitCmds,
      List.foldl]

/-- C4 (Staleness classification): `Swapchain::acquire_next` and
`Swapchain::present` (src/renderer/swapchain.rs) both classify
`ERROR_OUT_OF_DATE_KHR` as non-fatal — they set `out_of_date := true` and
return `Ok` — while any other driver error is returned to the caller with the
swapchain state (including the stale flag) unchanged; a successful call
stores the suboptimal bit (and, for acquire, the image index). -/
theorem staleness_classification (s : Swapchain) (idx : Nat) (sub : Bool)
    (c : Nat) :
    Swapchain.acquireNext s (.success idx sub) =
      ({ s with presentImageIndex := idx, outOfDate := sub }, none) ∧
    Swapchain.acquireNext s (.failure .outOfDateKhr) =
      ({ s with outOfDate := true }, none) ∧
    Swapchain.acquireNext s (.failure (.other c)) = (s, some (.other c)) ∧
    Swapchain.present s (.success sub) = ({ s with outOfDate := sub }, none) ∧
    Swapchain.present s (.failure .outOfDateKhr) =
      ({ s with outOfDate := true }, none) ∧
    Swapchain.present s (.failure (.other c)) = (s, some (.other c)) :=
  ⟨rfl, rfl, rfl, rfl, rfl, rfl⟩

/-- C5 counterexample: on an adapter table whose single queue family supports
graphics and compute but not presentation, `Device::new` of
src/renderer/device.rs (and src/renderer.rs) selects that family, whereas the
claim requires presentation support (src/main.rs indeed reports the fatal
error there). -/
theorem queue_selection_counterexample :
    DeviceRs.selectDeviceAndQueue
      [[{ graphics := true, compute := true, presentSupport := some false }]] =
      .ok (0, 0) ∧
    MainRs.selectDeviceAndQueue
      [[{ graphics := true, compute := true, presentSupport := some false }]] =
      .error "No suitable physical device found" :=
  ⟨rfl, rfl⟩

/-- C5 (amended): `Device::new` in src/main.rs selects the first
(adapter, queue family) pair supporting graphics, compute and presentation,
and fails fatally exactly when no such pair exists; `Device::new` in
src/renderer/device.rs (and src/renderer.rs) selects the first pair
supporting graphics and compute only — presentation support is not consulted
— and fails fatally exactly when no pair has graphics and compute. -/
theorem queue_family_selection (devices : List (List QueueFamilyInfo)) :
    (∀ d f, findDeviceFamily MainRs.queueCond devices = some (d, f) →
      (∃ q, familyAt devices d f = some q ∧ q.graphics = true ∧
        q.compute = true ∧ q.presentSupport = some true) ∧
      ∀ d' f' q', (d' < d ∨ (d' = d ∧ f' < f)) →
        familyAt devices d' f' = some q' → MainRs.queueCond q' = false) ∧
    (MainRs.selectDeviceAndQueue devices =
        .error "No suitable physical device found" ↔
      ∀ d f q, familyAt devices d f = some q → MainRs.queueCond q = false) ∧
    (∀ d f, findDeviceFamily DeviceRs.queueCond devices = some (d, f) →
      (∃ q, familyAt devices d f = some q ∧ q.graphics = true ∧
        q.compute = true) ∧
      ∀ d' f' q', (d' < d ∨ (d' = d ∧ f' < f)) →
        familyAt devices d' f' = some q' → DeviceRs.queueCond q' = false) ∧
    (DeviceRs.selectDeviceAndQueue devices =
        .error "No suitable physical device found" ↔
      ∀ d f q, familyAt devices d f = some q → DeviceRs.queueCond q = false) := by
  refine ⟨?_, ?_, ?_, ?_⟩
  · intro d f h
    obtain ⟨⟨q, hq, hpq⟩, hmin⟩ := findDeviceFamily_some _ devices d f h
    simp only [MainRs.queueCond, Bool.and_eq_true, beq_iff_eq] at hpq
    exact ⟨⟨q, hq, hpq.1.1, hpq.1.2, hpq.2⟩, hmin⟩
  · constructor
    · intro h
      cases hfd : findDeviceFamily MainRs.queueCond devices with
      | some x =>
        rw [MainRs.selectDeviceAndQueue, hfd] at h
        exact Except.noConfusion h
      | none => exact (findDeviceFamily_none _ devices).mp hfd
    · intro h
      rw [MainRs.selectDeviceAndQueue, (findDeviceFamily_none _ devices).mpr h]
  · intro d f h
    obtain ⟨⟨q, hq, hpq⟩, hmin⟩ := findDeviceFamily_some _ devices d f h
    simp only [DeviceRs.queueCond, Bool.and_eq_true] at hpq
    exact ⟨⟨q, hq, hpq.1, hpq.2⟩, hmin⟩
  · constructor
    · intro h
      cases hfd : findDeviceFamily DeviceRs.queueCond devices with
      | some x =>
        rw [DeviceRs.selectDeviceAndQueue, hfd] at h
        exact Except.noConfusion h
      | none => exact (findDeviceFamily_none _ devices).mp hfd
    · intro h
      rw [DeviceRs.selectDeviceAndQueue, (findDeviceFamily_none _ devices).mpr h]

/-- C5 witness: the characterisation applied to the concrete adapter table
`exampleDevices`, where src/main.rs selection picks pair (1, 0). -/
theorem queue_family_selection_witness :
    (∃ q, familyAt exampleDevices 1 0 = some q ∧ q.graphics = true ∧
      q.compute = true ∧ q.presentSupport = some true) ∧
    ∀ d' f' q', (d' < 1 ∨ (d' = 1 ∧ f' < 0)) →
      familyAt exampleDevices d' f' = some q' → MainRs.queueCond q' = false :=
  (queue_family_selection exampleDevices).1 1 0 rfl

/-- C6 counterexample: with a single available surface format that is neither
BGRA nor RGBA UNORM, `Swapchain::new` of src/renderer/swapchain.rs (and of
src/renderer.rs) returns the fatal error instead of falling back to the first
available format — which exists. -/
theorem surface_format_counterexample :
    SwapchainMod.chooseSurfaceFormat
      [{ format := .otherFormat 43, colorSpace := .srgbNonlinear }] =
      .error "No suitable surface format found" ∧
    RendererRs.chooseSurfaceFormat
      [{ format := .otherFormat 43, colorSpace := .srgbNonlinear }] =
      .error "No suitable surface format found" ∧
    [({ format := .otherFormat 43, colorSpace := .srgbNonlinear } :
        SurfaceFormat)].head? =
      some { format := .otherFormat 43, colorSpace := .srgbNonlinear } :=
  ⟨rfl, rfl, rfl⟩

/-- C6 (amended): `Swapchain::new` in src/renderer/swapchain.rs and
src/renderer.rs selects the first format that is BGRA or RGBA 8-bit UNORM
with the SRGB non-linear color space and fails fatally when none is offered
(no fallback); only src/main.rs falls back to the first available format —
and its preference covers BGRA UNORM only — so its fatal error occurs exactly
when the driver reports no formats at all. -/
theorem surface_format_selection (formats : List SurfaceFormat) :
    (∀ f, SwapchainMod.chooseSurfaceFormat formats = .ok f →
      ∃ i, formats.get? i = some f ∧ SwapchainMod.formatCond f = true ∧
        ∀ j g, j < i → formats.get? j = some g →
          SwapchainMod.formatCond g = false) ∧
    (SwapchainMod.chooseSurfaceFormat formats =
        .error "No suitable surface format found" ↔
      ∀ i g, formats.get? i = some g → SwapchainMod.formatCond g = false) ∧
    (RendererRs.chooseSurfaceFormat formats =
      SwapchainMod.chooseSurfaceFormat formats) ∧
    (∀ f, MainRs.chooseSurfaceFormat formats = .ok f →
      (∃ i, formats.get? i = some f ∧ MainRs.formatCond f = true ∧
        ∀ j g, j < i → formats.get? j = some g → MainRs.formatCond g = false) ∨
      ((∀ i g, formats.get? i = some g → MainRs.formatCond g = false) ∧
        formats.head? = some f)) ∧
    (MainRs.chooseSurfaceFormat formats =
        .error "No suitable surface format found" ↔ formats = []) := by
  refine ⟨?_, ?_, rfl, ?_, ?_⟩
  · intro f h
    cases hfd : formats.find? SwapchainMod.formatCond with
    | none =>
      rw [SwapchainMod.chooseSurfaceFormat, hfd] at h
      exact Except.noConfusion h
    | some g =>
      rw [SwapchainMod.chooseSurfaceFormat, hfd] at h
      have hgf : g = f := by injection h
      subst hgf
      exact find?_some_first _ formats _ hfd
  · constructor
    · intro h
      cases hfd : formats.find? SwapchainMod.formatCond with
      | none => exact (find?_none_iff _ formats).mp hfd
      | some g =>
        rw [SwapchainMod.chooseSurfaceFormat, hfd] at h
        exact Except.noConfusion h
    · intro h
      rw [SwapchainMod.chooseSurfaceFormat, (find?_none_iff _ formats).mpr h]
  · intro f h
    cases hfd : formats.find? MainRs.formatCond with
    | some g =>
      rw [MainRs.chooseSurfaceFormat, hfd] at h
      have hgf : g = f := by injection h
      subst hgf
      exact Or.inl (find?_some_first _ formats _ hfd)
    | none =>
      rw [MainRs.chooseSurfaceFormat, hfd] at h
      cases hh : formats.head? with
      | none => rw [hh] at h; exact Except.noConfusion h
      | some g =>
        rw [hh] at h
        have hgf : g = f := by injection h
        exact Or.inr ⟨(find?_none_iff _ formats).mp hfd, congrArg some hgf⟩
  · constructor
    · intro h
      cases hfd : formats.find? MainRs.formatCond with
      | some g =>
        rw [MainRs.chooseSurfaceFormat, hfd] at h
        exact Except.noConfusion h
      | none =>
        rw [MainRs.chooseSurfaceFormat, hfd] at h
        cases hh : formats.head? with
        | some g => rw [hh] at h; exact Except.noConfusion h
        | none => exact List.head?_eq_none_iff.mp hh
    · intro h
      subst h
      rfl

/-- C6 witness: the characterisation applied to the concrete format table
`exampleFormats`, where the src/renderer/swapchain.rs selection returns the
RGBA UNORM entry. -/
theorem surface_format_selection_witness :
    ∃ i, exampleFormats.get? i =
        some { format := .r8g8b8a8Unorm, colorSpace := .srgbNonlinear } ∧
      SwapchainMod.formatCond
        { format := .r8g8b8a8Unorm, colorSpace := .srgbNonlinear } = true ∧
      ∀ j g, j < i → exampleFormats.get? j = some g →
        SwapchainMod.formatCond g = false :=
  (surface_format_selection exampleFormats).1
    { format := .r8g8b8a8Unorm, colorSpace := .srgbNonlinear } rfl

/-- C7 counterexample: when `create_compute_pipelines` fails but (as `ash`
always does) hands back a pipeline vector — here the single null handle — the
`ComputePipeline::new` of src/renderer.rs (and src/main.rs) takes the
`!pipelines.is_empty()` branch and retains `pipelines[0]` instead of aborting
construction. -/
theorem pipeline_failure_counterexample :
    RendererRs.pipelineFromResult (.failure [.null] (.other 0)) =
      .retained .null ∧
    (RendererRs.pipelineFromResult (.failure [.null] (.other 0))).isAbort =
      false :=
  ⟨rfl, rfl⟩

/-- C7 (amended): `ComputePipeline::new` in src/renderer/compute_pipeline.rs
propagates every pipeline-creation failure (construction aborts, no component
is retained from a failed call); the embedded variants in src/renderer.rs and
src/main.rs abort only when the failed call returns an empty pipeline vector,
and otherwise retain the vector's first (possibly null) handle despite the
failure. -/
theorem pipeline_failure_propagation (ps : List Pipeline) (p : Pipeline)
    (e : VkErr) :
    ComputePipelineMod.pipelineFromResult (.failure ps e) = .aborted e ∧
    ComputePipelineMod.pipelineFromResult (.success [p]) = .retained p ∧
    RendererRs.pipelineFromResult (.failure [] e) = .aborted e ∧
    RendererRs.pipelineFromResult (.failure (p :: ps) e) = .retained p ∧
    RendererRs.pipelineFromResult (.success (p :: ps)) = .retained p := by
  refine ⟨?_, rfl, rfl, rfl, rfl⟩
  cases ps <;> rfl

/-- C8 (Dispatch coverage): both `dispatch` implementations request exactly
`ceil(width/16) × ceil(height/16) × 1` work groups — `div_ceil` agrees with
the `(w + 15) / 16` ceiling formula — the covered pixel span `16 * groups` is
at least the extent in each dimension, and a 1000×700 target yields exactly
63 × 44 × 1 groups. -/
theorem dispatch_coverage :
    (∀ w h, (RendererRs.dispatchCmds w h).getLast? =
      some (.dispatch ((w + 15) / 16) ((h + 15) / 16) 1)) ∧
    (∀ w h, (RendererMod.dispatchCmds w h).getLast? =
      some (.dispatch ((w + 15) / 16) ((h + 15) / 16) 1)) ∧
    (∀ w, w ≤ 16 * divCeil w 16) ∧
    (RendererRs.dispatchCmds 1000 700).getLast? =
      some (.dispatch 63 44 1) := by
  refine ⟨?_, ?_, ?_, by decide⟩
  · intro w h
    have h1 : (RendererRs.dispatchCmds w h).getLast? =
        some (.dispatch (divCeil w 16) (divCeil h 16) 1) := rfl
    rw [h1, divCeil_16, divCeil_16]
  · intro w h
    have h1 : (RendererMod.dispatchCmds w h).getLast? =
        some (.dispatch (divCeil w 16) (divCeil h 16) 1) := rfl
    rw [h1, divCeil_16, divCeil_16]
  · intro w
    unfold divCeil
    split <;> omega

/-- C9 (Scaling arithmetic): the intermediate extent is the surface extent
times `resolution_scaling`, truncated.  A 1024×768 surface with scaling 1/4
yields exactly 256×192; truncation (not rounding) is visible at 1023 with
scaling 1/2, where the code yields 511 while rounding the exact product
511.5 would yield 512; and in general the computed dimension never exceeds
the exact product.  (The code computes in `f32`; at these inputs the product
is exactly representable, so the `ℚ` evaluation coincides.) -/
theorem scaling_arithmetic :
    RendererRs.scaledExtent 1024 768 (1/4) = (256, 192) ∧
    RendererRs.scaledExtent 1023 1023 (1/2) = (511, 511) ∧
    round ((1023 : ℚ) * (1/2)) = 512 ∧
    ∀ (w : Nat) (s : ℚ), 0 ≤ s → ((asU32 ((w : ℚ) * s) : Nat) : ℚ) ≤ (w : ℚ) * s := by
  refine ⟨?_, ?_, ?_, ?_⟩
  · have h1 : (((1024 : ℕ) : ℚ) * (1/4)) = 256 := by norm_num
    have h2 : (((768 : ℕ) : ℚ) * (1/4)) = 192 := by norm_num
    unfold RendererRs.scaledExtent asU32
    rw [h1, h2]
    rfl
  · have h1 : (((1023 : ℕ) : ℚ) * (1/2)) = 1023/2 := by norm_num
    unfold RendererRs.scaledExtent asU32
    rw [h1]
    rw [show Int.floor ((1023 : ℚ)/2) = 511 by norm_num]
    rfl
  · rw [show ((1023 : ℚ) * (1/2)) = 1023/2 by norm_num]
    norm_num [round_eq]
  · intro w s hs
    have hq : (0 : ℚ) ≤ (w : ℚ) * s := mul_nonneg (by positivity) hs
    unfold asU32
    have h1 : ((min (Int.floor ((w : ℚ) * s)).toNat (2 ^ 32 - 1) : ℕ) : ℚ) ≤
        (((Int.floor ((w : ℚ) * s)).toNat : ℕ) : ℚ) := by
      exact_mod_cast Nat.min_le_left _ _
    refine h1.trans ?_
    have h2 : ((Int.floor ((w : ℚ) * s)).toNat : ℤ) = Int.floor ((w : ℚ) * s) :=
      Int.toNat_of_nonneg (Int.floor_nonneg.mpr hq)
    have h3 : (((Int.floor ((w : ℚ) * s)).toNat : ℕ) : ℚ) =
        ((Int.floor ((w : ℚ) * s) : ℤ) : ℚ) := by exact_mod_cast h2
    rw [h3]
    exact Int.floor_le _

/-- C9 witness: the truncation bound applied at the claimed instance
1024 × 1/4. -/
theorem scaling_arithmetic_witness :
    ((asU32 (((1024 : Nat) : ℚ) * (1/4)) : Nat) : ℚ) ≤ ((1024 : Nat) : ℚ) * (1/4) :=
  scaling_arithmetic.2.2.2 1024 (1/4) (by norm_num)

/-- C10 (Stale acquire leaves the image index unchanged): when
`acquire_next` classifies `ERROR_OUT_OF_DATE_KHR` as stale, it returns `Ok`
without touching `present_image_index`, so `present_image()` still refers to
the previously selected image; a fresh swapchain starts at index 0. -/
theorem stale_acquire_preserves_index (s : Swapchain) (imgs : List Nat) :
    (Swapchain.acquireNext s (.failure .outOfDateKhr)).1.presentImageIndex =
      s.presentImageIndex ∧
    (Swapchain.acquireNext s (.failure .outOfDateKhr)).1.presentImage? =
      s.presentImage? ∧
    (Swapchain.acquireNext s (.failure .outOfDateKhr)).2 = none ∧
    (Swapchain.created imgs).presentImageIndex = 0 ∧
    (Swapchain.created imgs).presentImage? = imgs.get? 0 :=
  ⟨rfl, rfl, rfl, rfl, rfl⟩

end Luma
